import Mathlib

/-
Shallow embedding of the transactional sale-creation and stock-consistency
core of the pos_system repository (src/db/models.py, src/db/repositories/
product_repo.py, src/db/repositories/sales_repo.py, src/core/services/
inventory_service.py, src/core/services/sales_service.py).

Modelling conventions:
  - Python int is Int (quantities, deltas), product / sale / user ids are Nat.
  - Python float prices and totals are modelled as exact rationals.
  - The MySQL database is a DBState record of row lists; SELECT ... WHERE id
    is List.find?, UPDATE ... WHERE id maps over the row list.
  - A MySQL transaction (start_transaction / per-statement execute / commit /
    rollback) is modelled by running the statement actions on a buffer state;
    an Option Nat failure oracle says which action (if any) raises, in which
    case the rollback restores the pre-transaction state.
-/

namespace POS

/-- Product row, from db/models.py Product and the products table
(id, barcode, name, price, quantity); timestamps are immaterial here. -/
structure Product where
  id : Nat
  barcode : Option String
  name : String
  price : ℚ
  quantity : Int
deriving DecidableEq, Repr

/-- Sale line item, from db/models.py SaleItem as used pre-commit in the
cart (product_id, product_name snapshot, quantity, unit_price). -/
structure SaleItem where
  product_id : Nat
  product_name : String
  quantity : Int
  unit_price : ℚ
deriving DecidableEq, Repr

/-- Sale draft, from db/models.py Sale (user_id, total_amount,
payment_method, items); id is assigned by the database on commit. -/
structure Sale where
  user_id : Nat
  total_amount : ℚ
  payment_method : String
  items : List SaleItem
deriving DecidableEq, Repr

/-- Persisted row of the sales table. -/
structure SaleRow where
  id : Nat
  user_id : Nat
  total_amount : ℚ
  payment_method : String
deriving DecidableEq, Repr

/-- Persisted row of the sale_items table. -/
structure SaleItemRow where
  sale_id : Nat
  product_id : Nat
  quantity : Int
  unit_price : ℚ
deriving DecidableEq, Repr

/-- The persistent store: products, sales and sale_items tables, plus the
AUTO_INCREMENT counter the database uses for the next sale id. -/
structure DBState where
  products : List Product
  sales : List SaleRow
  sale_items : List SaleItemRow
  nextSaleId : Nat
deriving DecidableEq, Repr

/-- Models product_repo.get_by_id: SELECT * FROM products WHERE id = %s (first row). -/
def get_by_id (db : DBState) (pid : Nat) : Option Product :=
  db.products.find? (fun p => p.id == pid)

/-- The quantity column of the product row with the given id, if any. -/
def get_quantity (db : DBState) (pid : Nat) : Option Int :=
  (get_by_id db pid).map (fun p => p.quantity)

/-- Models UPDATE products SET quantity = %s WHERE id = %s. -/
def set_quantity (db : DBState) (pid : Nat) (newq : Int) : DBState :=
  { db with
    products := db.products.map
      (fun p => if p.id == pid then { p with quantity := newq } else p) }

/-- Models product_repo.update_quantity: reads the current quantity, rejects if
current + change would be negative, otherwise executes the UPDATE and
returns affected_rows > 0. The connector sets no CLIENT_FOUND_ROWS flag, so
cursor.rowcount counts CHANGED rows: an UPDATE that writes the value
already stored changes no row, reports 0 affected rows, and the function
returns False even though the non-negative check passed. -/
def update_quantity (db : DBState) (pid : Nat) (quantity_change : Int) :
    Bool × DBState :=
  match get_by_id db pid with
  | none => (false, db)
  | some p =>
    if p.quantity + quantity_change < 0 then (false, db)
    else if p.quantity + quantity_change = p.quantity then
      (false, set_quantity db pid (p.quantity + quantity_change))
    else (true, set_quantity db pid (p.quantity + quantity_change))

/-- Models inventory_service.update_stock: re-reads the product, rejects when it is
missing or the adjusted quantity would be negative, else delegates to
product_repo.update_quantity. -/
def update_stock (db : DBState) (pid : Nat) (quantity_change : Int) :
    Bool × DBState :=
  match get_by_id db pid with
  | none => (false, db)
  | some p =>
    if p.quantity + quantity_change < 0 then (false, db)
    else update_quantity db pid quantity_change

/-- Models SaleItem.total_price: quantity * unit_price. -/
def total_price (it : SaleItem) : ℚ :=
  (it.quantity : ℚ) * it.unit_price

/-- Models Sale.calculate_total: sum of total_price over the items. -/
def calculate_total (items : List SaleItem) : ℚ :=
  (items.map total_price).sum

/-- One SQL statement executed inside the sale-commit transaction of
sales_repo.create_sale_with_items. -/
inductive TxAction where
  | insSale : SaleRow → TxAction
  | insItem : SaleItemRow → TxAction
  | decStock : Nat → Int → TxAction
deriving DecidableEq, Repr

/-- Effect of one transaction statement on the (buffered) store.
decStock is the raw UPDATE products SET quantity = quantity - %s WHERE
id = %s of create_sale_with_items; it performs no non-negativity check. -/
def applyAction (db : DBState) : TxAction → DBState
  | .insSale r =>
    { db with sales := db.sales ++ [r], nextSaleId := db.nextSaleId + 1 }
  | .insItem r =>
    { db with sale_items := db.sale_items ++ [r] }
  | .decStock pid q =>
    { db with
      products := db.products.map
        (fun p => if p.id == pid then { p with quantity := p.quantity - q } else p) }

/-- The sale_items row inserted for one line of a sale. -/
def itemRow (sid : Nat) (it : SaleItem) : SaleItemRow :=
  { sale_id := sid, product_id := it.product_id,
    quantity := it.quantity, unit_price := it.unit_price }

/-- The per-item statements of create_sale_with_items, in program order:
for each item, INSERT the sale_items row then decrement the product stock. -/
def itemActions (sid : Nat) : List SaleItem → List TxAction
  | [] => []
  | it :: rest =>
    .insItem (itemRow sid it) :: .decStock it.product_id it.quantity ::
      itemActions sid rest

/-- All statements of the create_sale_with_items transaction: the sales-row
insert followed by the per-item statements. -/
def saleActions (sid : Nat) (s : Sale) : List TxAction :=
  .insSale { id := sid, user_id := s.user_id, total_amount := s.total_amount,
             payment_method := s.payment_method } :: itemActions sid s.items

/-- Run the transaction statements on the buffer. The oracle gives the index
of the action that raises (the index one past the statements is the commit
itself); none of the actions raising means the transaction commits and the
buffered state becomes durable, a raise means rollback (the caller keeps the
pre-transaction state). -/
def runActions : DBState → List TxAction → Option Nat → Option DBState
  | buf, [], none => some buf
  | _, [], some 0 => none
  | buf, [], some (_ + 1) => some buf
  | _, _ :: _, some 0 => none
  | buf, a :: rest, none => runActions (applyAction buf a) rest none
  | buf, a :: rest, some (k + 1) => runActions (applyAction buf a) rest (some k)

/-- Models sales_repo.create_sale_with_items: inside one transaction, insert the
sale row (whose id is the database's next sale id), insert every item row,
decrement every product's stock by the line quantity; commit, or roll back
on any raise and report (False, None). -/
def create_sale_with_items (db : DBState) (s : Sale) (failAt : Option Nat) :
    (Bool × Option Nat) × DBState :=
  let sid := db.nextSaleId
  match runActions db (saleActions sid s) failAt with
  | none => ((false, none), db)
  | some buf => ((true, some sid), buf)

/-- The acting operator's session, abstracting core/auth.py Session down to
session.user.id, the only part create_sale reads. -/
structure Session where
  user_id : Nat
deriving DecidableEq, Repr

/-- The commit-time validation loop of sales_service.create_sale: for each
item in order, re-read the product; abort on a missing product or on
current stock below the line quantity; otherwise snapshot the product name
onto the line. -/
def validate_items (db : DBState) : List SaleItem → Option (List SaleItem)
  | [] => some []
  | it :: rest =>
    match get_by_id db it.product_id with
    | none => none
    | some p =>
      if p.quantity < it.quantity then none
      else
        match validate_items db rest with
        | none => none
        | some rest' => some ({ it with product_name := p.name } :: rest')

/-- Models sales_service.create_sale: reject an empty cart or a missing session;
set the operator id, recompute the total server-side, re-validate every
line against the store, and only then call the atomic insertion. -/
def create_sale (db : DBState) (sess : Option Session) (sale : Sale)
    (failAt : Option Nat) : (Bool × Option Nat) × DBState :=
  if sale.items.isEmpty then ((false, none), db)
  else
    match sess with
    | none => ((false, none), db)
    | some s =>
      let sale1 : Sale :=
        { sale with user_id := s.user_id,
                    total_amount := calculate_total sale.items }
      match validate_items db sale1.items with
      | none => ((false, none), db)
      | some items' => create_sale_with_items db { sale1 with items := items' } failAt

/-- The merge loop of sales_service.add_product_to_sale: find the first cart
line for the product and increment its quantity; none when absent. -/
def bumpFirst : List SaleItem → Nat → Int → Option (List SaleItem)
  | [], _, _ => none
  | it :: rest, pid, q =>
    if it.product_id == pid then
      some ({ it with quantity := it.quantity + q } :: rest)
    else
      match bumpFirst rest pid q with
      | none => none
      | some rest' => some (it :: rest')

/-- Models sales_service.add_product_to_sale: look the product up; fail when it is
missing or its stock is below the quantity being added; merge into an
existing line for the product, else append a fresh line snapshotting the
current name and price. -/
def add_product_to_sale (db : DBState) (sale : Sale) (pid : Nat) (q : Int) :
    Bool × Sale :=
  match get_by_id db pid with
  | none => (false, sale)
  | some p =>
    if p.quantity < q then (false, sale)
    else
      match bumpFirst sale.items pid q with
      | some items' => (true, { sale with items := items' })
      | none =>
        (true, { sale with items := sale.items ++
          [{ product_id := pid, product_name := p.name,
             quantity := q, unit_price := p.price }] })

/-- The removal loop of sales_service.remove_product_from_sale: at the first
line for the product, drop the line when no quantity is given or the line
quantity is at most the given one, else decrement; none when absent. -/
def removeFirst : List SaleItem → Nat → Option Int → Option (List SaleItem)
  | [], _, _ => none
  | it :: rest, pid, q =>
    if it.product_id == pid then
      match q with
      | none => some rest
      | some n =>
        if it.quantity ≤ n then some rest
        else some ({ it with quantity := it.quantity - n } :: rest)
    else
      match removeFirst rest pid q with
      | none => none
      | some rest' => some (it :: rest')

/-- Models sales_service.remove_product_from_sale: apply the removal loop; False
with the cart unchanged when the product is not in the cart. -/
def remove_product_from_sale (sale : Sale) (pid : Nat) (q : Option Int) :
    Bool × Sale :=
  match removeFirst sale.items pid q with
  | none => (false, sale)
  | some items' => (true, { sale with items := items' })

/-- One in-flight update_quantity call in the interleaving model: its delta,
the quantity it has read (none before its SELECT), and its outcome (none
before it finishes). -/
structure AdjustCall where
  delta : Int
  readVal : Option Int
  result : Option Bool
deriving DecidableEq, Repr

/-- One scheduler step of an update_quantity call against the shared stored
quantity: first the SELECT (record the current quantity), then the check on
the recorded quantity followed by UPDATE SET quantity = recorded + delta;
a finished call does nothing. This is exactly the read-then-write split of
product_repo.update_quantity, with no lock between the two statements, and
with its affected_rows > 0 result: a write whose value equals the currently
stored quantity changes no row, so the call reports False (changed-rows
semantics, as in the repository function). -/
def stepAdjust (q : Int) (c : AdjustCall) : Int × AdjustCall :=
  match c.readVal with
  | none => (q, { c with readVal := some q })
  | some r =>
    match c.result with
    | some _ => (q, c)
    | none =>
      if r + c.delta < 0 then (q, { c with result := some false })
      else if r + c.delta = q then (q, { c with result := some false })
      else (r + c.delta, { c with result := some true })

/-- Run two concurrent update_quantity calls under a schedule: false picks
the next step of the first call, true of the second. -/
def runRace : Int → AdjustCall → AdjustCall → List Bool → Int × AdjustCall × AdjustCall
  | q, c1, c2, [] => (q, c1, c2)
  | q, c1, c2, false :: rest =>
    let s := stepAdjust q c1
    runRace s.1 s.2 c2 rest
  | q, c1, c2, true :: rest =>
    let s := stepAdjust q c2
    runRace s.1 c1 s.2 rest

/-- Sum of the line quantities a sale draft carries for one product. -/
def qty_sold (items : List SaleItem) (pid : Nat) : Int :=
  ((items.filter (fun it => it.product_id == pid)).map (fun it => it.quantity)).sum

/-- Boolean form of the per-line commit check of create_sale: the product
exists and its current stock covers the line quantity. -/
def line_ok (db : DBState) (it : SaleItem) : Bool :=
  match get_by_id db it.product_id with
  | none => false
  | some p => decide (it.quantity ≤ p.quantity)

/-- One cart operation, for iterating the Cart Aggregate interface. -/
inductive CartOp where
  | add : Nat → Int → CartOp
  | remove : Nat → Option Int → CartOp
deriving DecidableEq, Repr

/-- Apply one cart operation (paired with the store state it reads). -/
def applyCartOp (sale : Sale) : DBState × CartOp → Sale
  | (db, .add pid q) => (add_product_to_sale db sale pid q).2
  | (_, .remove pid q) => (remove_product_from_sale sale pid q).2

/-- Apply a sequence of cart operations in order. -/
def applyCartOps (sale : Sale) (ops : List (DBState × CartOp)) : Sale :=
  ops.foldl applyCartOp sale

/-- A fresh empty cart. -/
def emptySale : Sale :=
  { user_id := 0, total_amount := 0, payment_method := "cash", items := [] }

/-- The add-quantity restriction under which the cart quantity invariant
holds: every addProduct call in the sequence adds at least one unit. -/
def addQtyOk : DBState × CartOp → Prop
  | (_, .add _ q) => 1 ≤ q
  | (_, .remove _ _) => True

instance : DecidablePred addQtyOk := by
  intro o
  rcases o with ⟨db, op⟩
  cases op <;> simp [addQtyOk] <;> infer_instance

/-- Store with a single product, id 1, price 10, five units on hand. -/
def demoDb : DBState :=
  { products := [{ id := 1, barcode := none, name := "widget", price := 10, quantity := 5 }],
    sales := [], sale_items := [], nextSaleId := 1 }

/-- Store with a single product, id 1, price 10, two units on hand. -/
def lowDb : DBState :=
  { products := [{ id := 1, barcode := none, name := "widget", price := 10, quantity := 2 }],
    sales := [], sale_items := [], nextSaleId := 1 }

/-- Store with no products at all. -/
def bareDb : DBState :=
  { products := [], sales := [], sale_items := [], nextSaleId := 1 }

/-- Draft selling three units of product 1. -/
def draft3 : Sale :=
  { user_id := 0, total_amount := 0, payment_method := "cash",
    items := [{ product_id := 1, product_name := "", quantity := 3, unit_price := 10 }] }

/-- Draft holding two separate lines of three units each for product 1. -/
def draftDup : Sale :=
  { user_id := 0, total_amount := 0, payment_method := "cash",
    items := [{ product_id := 1, product_name := "", quantity := 3, unit_price := 10 },
              { product_id := 1, product_name := "", quantity := 3, unit_price := 10 }] }

/-- Cart already holding three units of product 1. -/
def cart3 : Sale :=
  { user_id := 0, total_amount := 0, payment_method := "cash",
    items := [{ product_id := 1, product_name := "widget", quantity := 3, unit_price := 10 }] }

/-- The single line of draft3 after commit-time validation snapshots the
product name from the demo store. -/
def validated3 : List SaleItem :=
  [{ product_id := 1, product_name := "widget", quantity := 3, unit_price := 10 }]

/-- Sum of quantity * unit_price over persisted sale_items rows. -/
def items_total (rows : List SaleItemRow) : ℚ :=
  (rows.map (fun r => (r.quantity : ℚ) * r.unit_price)).sum

/-- Store holding one product, id 1, with the given quantity on hand. -/
def oneProductDb (q0 : Int) : DBState :=
  { products := [{ id := 1, barcode := none, name := "widget", price := 10, quantity := q0 }],
    sales := [], sale_items := [], nextSaleId := 1 }

/-- An id-preserving row update (UPDATE ... WHERE id = pid') commutes with a
point lookup (SELECT ... WHERE id = pid): the lookup sees the updated row
exactly when the two ids agree. -/
theorem find?_map_update (l : List Product) (pid pid' : Nat) (f : Product → Product)
    (hf : ∀ p, (f p).id = p.id) :
    (l.map (fun p => if p.id == pid' then f p else p)).find? (fun p => p.id == pid)
      = if pid' = pid then (l.find? (fun p => p.id == pid)).map f
        else l.find? (fun p => p.id == pid) := by
  induction l with
  | nil => by_cases h : pid' = pid <;> simp [h]
  | cons p rest ih =>
    rw [List.map_cons]
    cases hb' : (p.id == pid') with
    | false =>
      rw [show (if false = true then f p else p) = p from rfl]
      cases hb : (p.id == pid) with
      | true =>
        have h3 : ¬ pid' = pid := by
          intro hc
          rw [beq_eq_false_iff_ne] at hb'
          rw [beq_iff_eq] at hb
          exact hb' (by rw [hb, hc])
        simp only [List.find?_cons, hb, if_neg h3]
      | false =>
        simp only [List.find?_cons, hb]
        exact ih
    | true =>
      rw [show (if true = true then f p else p) = f p from rfl]
      have hpid' : p.id = pid' := by rwa [beq_iff_eq] at hb'
      cases hb : (p.id == pid) with
      | true =>
        have hpid : p.id = pid := by rwa [beq_iff_eq] at hb
        have hfb : ((f p).id == pid) = true := by rw [hf p]; exact hb
        have hpp : pid' = pid := by rw [← hpid', hpid]
        simp only [List.find?_cons, hb, hfb, if_pos hpp]
        rfl
      | false =>
        have hfb : ((f p).id == pid) = false := by rw [hf p]; exact hb
        simp only [List.find?_cons, hb, hfb]
        exact ih

/-- Stock after the raw transaction decrement: the targeted product loses q,
every other product keeps its quantity. -/
theorem get_quantity_decStock (db : DBState) (pid pid' : Nat) (q : Int) :
    get_quantity (applyAction db (.decStock pid' q)) pid
      = if pid' = pid then (get_quantity db pid).map (fun x => x - q)
        else get_quantity db pid := by
  have h := find?_map_update db.products pid pid'
      (fun p => { p with quantity := p.quantity - q }) (fun _ => rfl)
  show ((db.products.map
      (fun p => if p.id == pid' then { p with quantity := p.quantity - q } else p)).find?
        (fun p => p.id == pid)).map (fun p => p.quantity) = _
  rw [h]
  by_cases hp : pid' = pid
  · rw [if_pos hp, if_pos hp]
    unfold get_quantity get_by_id
    cases hfind : db.products.find? (fun p => p.id == pid) with
    | none => rfl
    | some p => rfl
  · rw [if_neg hp, if_neg hp]
    rfl

/-- Point lookup after an absolute quantity write on an existing row. -/
theorem get_quantity_set (db : DBState) (pid : Nat) (n : Int) (p : Product)
    (h : get_by_id db pid = some p) :
    get_quantity (set_quantity db pid n) pid = some n := by
  have hm := find?_map_update db.products pid pid
      (fun p => { p with quantity := n }) (fun _ => rfl)
  rw [if_pos rfl] at hm
  show ((db.products.map
      (fun p => if p.id == pid then { p with quantity := n } else p)).find?
        (fun p => p.id == pid)).map (fun p => p.quantity) = some n
  rw [hm]
  unfold get_by_id at h
  rw [h]
  rfl

/-- A transaction that reaches its commit leaves the store equal to the
in-order application of all its statements. -/
theorem runActions_eq_foldl (acts : List TxAction) (buf out : DBState) (fa : Option Nat)
    (h : runActions buf acts fa = some out) :
    out = acts.foldl applyAction buf := by
  induction acts generalizing buf fa with
  | nil =>
    cases fa with
    | none => simp [runActions] at h; simp [h]
    | some k =>
      cases k with
      | zero => simp [runActions] at h
      | succ k => simp [runActions] at h; simp [h]
  | cons a rest ih =>
    cases fa with
    | none =>
      simp only [runActions] at h
      simpa using ih _ _ h
    | some k =>
      cases k with
      | zero => simp [runActions] at h
      | succ k =>
        simp only [runActions] at h
        simpa using ih _ _ h

/-- The per-item statements never touch the sales table. -/
theorem itemActions_foldl_sales (sid : Nat) (items : List SaleItem) (buf : DBState) :
    ((itemActions sid items).foldl applyAction buf).sales = buf.sales := by
  induction items generalizing buf with
  | nil => simp [itemActions]
  | cons it rest ih => simp [itemActions, ih, applyAction]

/-- The per-item statements append exactly one sale_items row per line, in
order. -/
theorem itemActions_foldl_sale_items (sid : Nat) (items : List SaleItem) (buf : DBState) :
    ((itemActions sid items).foldl applyAction buf).sale_items
      = buf.sale_items ++ items.map (itemRow sid) := by
  induction items generalizing buf with
  | nil => simp [itemActions]
  | cons it rest ih => simp [itemActions, ih, applyAction]

/-- Splitting the quantity a draft sells of one product at the head line. -/
theorem qty_sold_cons (it : SaleItem) (rest : List SaleItem) (pid : Nat) :
    qty_sold (it :: rest) pid
      = (if it.product_id = pid then it.quantity else 0) + qty_sold rest pid := by
  by_cases h : it.product_id = pid <;> simp [qty_sold, h]

/-- The per-item statements decrement every product by exactly the total
line quantity the draft sells of it. -/
theorem itemActions_foldl_quantity (sid : Nat) (items : List SaleItem) (buf : DBState)
    (pid : Nat) :
    get_quantity ((itemActions sid items).foldl applyAction buf) pid
      = (get_quantity buf pid).map (fun x => x - qty_sold items pid) := by
  induction items generalizing buf with
  | nil =>
    simp [itemActions, qty_sold]
  | cons it rest ih =>
    have hins : get_quantity (applyAction buf (.insItem (itemRow sid it))) pid
        = get_quantity buf pid := by
      simp [applyAction, get_quantity, get_by_id]
    simp only [itemActions, List.foldl_cons]
    rw [ih, get_quantity_decStock, qty_sold_cons]
    by_cases h : it.product_id = pid
    · simp only [h, if_pos rfl, hins]
      cases get_quantity buf pid with
      | none => simp
      | some x => simp; ring
    · have h' : ¬ it.product_id = pid := h
      simp only [h', if_neg h', if_false, hins]
      simp

/-- Dichotomy: create_sale_with_items either rolls back, reporting (False, None) and
keeping the store untouched, or commits with the allocated id. -/
theorem create_sale_with_items_cases (db : DBState) (s : Sale) (failAt : Option Nat) :
    create_sale_with_items db s failAt = ((false, none), db) ∨
    ∃ buf, runActions db (saleActions db.nextSaleId s) failAt = some buf ∧
      create_sale_with_items db s failAt = ((true, some db.nextSaleId), buf) := by
  unfold create_sale_with_items
  cases h : runActions db (saleActions db.nextSaleId s) failAt <;> simp [h]

/-- Full characterization of a committed create_sale_with_items run: the id
is the store's next sale id, the sales table gains exactly the sale row, the
sale_items table gains exactly one row per line, and every product's
quantity drops by precisely the total quantity the draft sells of it. -/
theorem csw_success (db : DBState) (s : Sale) (failAt : Option Nat) (sid : Nat)
    (db' : DBState)
    (h : create_sale_with_items db s failAt = ((true, some sid), db')) :
    sid = db.nextSaleId ∧
    db'.sales = db.sales ++
      [{ id := sid, user_id := s.user_id, total_amount := s.total_amount,
         payment_method := s.payment_method }] ∧
    db'.sale_items = db.sale_items ++ s.items.map (itemRow sid) ∧
    (∀ pid, get_quantity db' pid
        = (get_quantity db pid).map (fun x => x - qty_sold s.items pid)) := by
  rcases create_sale_with_items_cases db s failAt with hc | ⟨buf, hrun, hc⟩
  · rw [hc] at h; simp at h
  · rw [hc] at h
    have h1 : sid = db.nextSaleId := by
      have := congrArg (fun x => x.1.2) h; simpa using this.symm
    have h2 : db' = buf := by
      have := congrArg (fun x => x.2) h; simpa using this.symm
    subst h1; subst h2
    have hfold := runActions_eq_foldl _ _ _ _ hrun
    subst hfold
    refine ⟨rfl, ?_, ?_, ?_⟩
    · rw [saleActions, List.foldl_cons, itemActions_foldl_sales]
      simp [applyAction]
    · rw [saleActions, List.foldl_cons, itemActions_foldl_sale_items]
      simp [applyAction]
    · intro pid
      rw [saleActions, List.foldl_cons, itemActions_foldl_quantity]
      simp [applyAction, get_quantity, get_by_id]

/-- Claim C1: sale commit is all-or-nothing. Whenever create_sale_with_items
fails — any statement of the transaction, or its commit, raising — the
persistent store equals the state before the attempt (no sale row, no line
item row, no stock decrement survives) and no id is returned; whenever it
succeeds, the sale row, every line-item row, and every per-line stock
decrement are all present in the resulting store. -/
theorem create_sale_with_items_atomic (db : DBState) (s : Sale) (failAt : Option Nat) :
    (∀ r db', create_sale_with_items db s failAt = ((false, r), db') →
        db' = db ∧ r = none) ∧
    (∀ sid db', create_sale_with_items db s failAt = ((true, some sid), db') →
      ({ id := sid, user_id := s.user_id, total_amount := s.total_amount,
         payment_method := s.payment_method } : SaleRow) ∈ db'.sales ∧
      (∀ it ∈ s.items, itemRow sid it ∈ db'.sale_items) ∧
      (∀ pid, get_quantity db' pid
          = (get_quantity db pid).map (fun x => x - qty_sold s.items pid))) := by
  constructor
  · intro r db' h
    rcases create_sale_with_items_cases db s failAt with hc | ⟨buf, _, hc⟩
    · have heq := hc.symm.trans h
      have hp : ((false : Bool), (none : Option Nat)) = (false, r) ∧ db = db' := by
        simpa [Prod.ext_iff] using heq
      have hr : (none : Option Nat) = r := by
        simpa [Prod.ext_iff] using hp.1
      exact ⟨hp.2.symm, hr.symm⟩
    · have heq := hc.symm.trans h
      simp [Prod.ext_iff] at heq
  · intro sid db' h
    obtain ⟨_, hsales, hitems, hqty⟩ := csw_success db s failAt sid db' h
    refine ⟨?_, ?_, hqty⟩
    · rw [hsales]; simp
    · intro it hit
      rw [hitems]
      exact List.mem_append_right _ (List.mem_map_of_mem _ hit)

/-- Witness for create_sale_with_items_atomic: a run on the demo store that
raises at the second statement leaves the store untouched, and a completed
run contains the inserted sale row. -/
theorem create_sale_with_items_atomic_witness :
    (create_sale_with_items demoDb draft3 (some 1)).2 = demoDb ∧
    ({ id := 1, user_id := 0, total_amount := 0, payment_method := "cash" } : SaleRow)
      ∈ (create_sale_with_items demoDb draft3 none).2.sales := by
  constructor
  · exact ((create_sale_with_items_atomic demoDb draft3 (some 1)).1 none
      ((create_sale_with_items demoDb draft3 (some 1)).2) (by decide)).1
  · exact ((create_sale_with_items_atomic demoDb draft3 none).2 1
      ((create_sale_with_items demoDb draft3 none).2) (by decide)).1

/-- Write case of product_repo.update_quantity: on an existing row whose
adjusted quantity stays non-negative it performs the absolute write, and its
result is affected_rows > 0, i.e. whether the written value differs from the
stored one. -/
theorem update_quantity_of_found (db : DBState) (pid : Nat) (d : Int) (p : Product)
    (hf : get_by_id db pid = some p) (hcond : ¬ (p.quantity + d < 0)) :
    update_quantity db pid d
      = (if p.quantity + d = p.quantity then false else true,
         set_quantity db pid (p.quantity + d)) := by
  unfold update_quantity
  rw [hf]
  show (if p.quantity + d < 0 then ((false, db) : Bool × DBState)
        else if p.quantity + d = p.quantity then
          (false, set_quantity db pid (p.quantity + d))
        else (true, set_quantity db pid (p.quantity + d))) = _
  rw [if_neg hcond]
  by_cases h : p.quantity + d = p.quantity
  · rw [if_pos h, if_pos h]
  · rw [if_neg h, if_neg h]

/-- Claim C6 (amended): update_stock reads the current quantity q of the
product; it rejects with the stored state unchanged when the product does
not exist or q + delta is negative; otherwise it writes q + delta, and it
reports success exactly when the write changes the stored value (delta
nonzero) — a zero delta writes the value already stored, MySQL reports 0
changed rows, and the call reports rejection while the stored quantity is
q + delta = q either way. -/
theorem update_stock_semantics (db : DBState) (pid : Nat) (d : Int) :
    (get_quantity db pid = none → update_stock db pid d = (false, db)) ∧
    (∀ q, get_quantity db pid = some q → q + d < 0 →
        update_stock db pid d = (false, db)) ∧
    (∀ q, get_quantity db pid = some q → 0 ≤ q + d → d ≠ 0 →
        (update_stock db pid d).1 = true ∧
        get_quantity (update_stock db pid d).2 pid = some (q + d)) ∧
    (∀ q, get_quantity db pid = some q → 0 ≤ q + d → d = 0 →
        (update_stock db pid d).1 = false ∧
        get_quantity (update_stock db pid d).2 pid = some q) := by
  refine ⟨?_, ?_, ?_, ?_⟩
  · intro h
    unfold get_quantity at h
    unfold update_stock
    cases hf : get_by_id db pid with
    | none => rfl
    | some p => rw [hf] at h; simp at h
  · intro q hq hlt
    unfold get_quantity at hq
    unfold update_stock
    cases hf : get_by_id db pid with
    | none => rfl
    | some p =>
      rw [hf] at hq
      have hpq : p.quantity = q := by simpa using hq
      show (if p.quantity + d < 0 then ((false, db) : Bool × DBState)
            else update_quantity db pid d) = (false, db)
      rw [if_pos (by rw [hpq]; exact hlt)]
  · intro q hq hge hd
    unfold get_quantity at hq
    unfold update_stock
    cases hf : get_by_id db pid with
    | none => rw [hf] at hq; simp at hq
    | some p =>
      rw [hf] at hq
      have hpq : p.quantity = q := by simpa using hq
      have hcond : ¬ (p.quantity + d < 0) := by rw [hpq]; omega
      show (if p.quantity + d < 0 then ((false, db) : Bool × DBState)
              else update_quantity db pid d).1 = true ∧
          get_quantity (if p.quantity + d < 0 then ((false, db) : Bool × DBState)
              else update_quantity db pid d).2 pid = some (q + d)
      rw [if_neg hcond, update_quantity_of_found db pid d p hf hcond]
      rw [if_neg (by omega)]
      refine ⟨rfl, ?_⟩
      show get_quantity (set_quantity db pid (p.quantity + d)) pid = some (q + d)
      rw [get_quantity_set db pid (p.quantity + d) p hf, hpq]
  · intro q hq hge hd
    subst hd
    unfold get_quantity at hq
    unfold update_stock
    cases hf : get_by_id db pid with
    | none => rw [hf] at hq; simp at hq
    | some p =>
      rw [hf] at hq
      have hpq : p.quantity = q := by simpa using hq
      have hcond : ¬ (p.quantity + 0 < 0) := by omega
      show (if p.quantity + 0 < 0 then ((false, db) : Bool × DBState)
              else update_quantity db pid 0).1 = false ∧
          get_quantity (if p.quantity + 0 < 0 then ((false, db) : Bool × DBState)
              else update_quantity db pid 0).2 pid = some q
      rw [if_neg hcond, update_quantity_of_found db pid 0 p hf hcond]
      rw [if_pos (by omega)]
      refine ⟨rfl, ?_⟩
      show get_quantity (set_quantity db pid (p.quantity + 0)) pid = some q
      rw [get_quantity_set db pid (p.quantity + 0) p hf]
      rw [show p.quantity + 0 = p.quantity from by omega, hpq]

/-- Claim C6 (counterexample): on the demo store, product 1 exists with
quantity 5 and 5 + 0 is not negative, so the claim requires update_stock to
return success — but the UPDATE writes the value already stored, changes no
row, and the call returns False (with the store unchanged). -/
theorem update_stock_zero_delta_reports_failure :
    get_quantity demoDb 1 = some 5 ∧ (0 : Int) ≤ 5 + 0 ∧
    update_stock demoDb 1 0 = (false, demoDb) := by
  decide

/-- Witness for update_stock_semantics: removing three of the demo store's
five units succeeds and leaves two on hand; a zero adjustment reports False
and leaves the five units stored. -/
theorem update_stock_semantics_witness :
    (update_stock demoDb 1 (-3)).1 = true ∧
    get_quantity (update_stock demoDb 1 (-3)).2 1 = some 2 ∧
    (update_stock demoDb 1 0).1 = false ∧
    get_quantity (update_stock demoDb 1 0).2 1 = some 5 := by
  have h := (update_stock_semantics demoDb 1 (-3)).2.2.1 5 (by decide) (by decide) (by decide)
  have h0 := (update_stock_semantics demoDb 1 0).2.2.2 5 (by decide) (by decide) rfl
  exact ⟨h.1, h.2.trans (by decide), h0.1, h0.2⟩

/-- The commit-time validation loop aborts exactly when some line fails the
per-line check: a missing product or stock below the line quantity. -/
theorem validate_items_eq_none_iff (db : DBState) (items : List SaleItem) :
    validate_items db items = none ↔ items.all (line_ok db) = false := by
  induction items with
  | nil => simp [validate_items]
  | cons it rest ih =>
    cases hp : get_by_id db it.product_id with
    | none =>
      simp [validate_items, hp, line_ok, List.all_cons]
    | some p =>
      by_cases hq : p.quantity < it.quantity
      · have hnot : ¬ (it.quantity ≤ p.quantity) := by omega
        simp [validate_items, hp, hq, line_ok, List.all_cons, hnot]
      · have hle : it.quantity ≤ p.quantity := by omega
        simp only [validate_items, hp]
        rw [if_neg hq]
        cases hv : validate_items db rest with
        | none =>
          simp [List.all_cons, line_ok, hp, hle, ih.mp hv]
        | some rest' =>
          have hall : rest.all (line_ok db) = true := by
            cases hall0 : rest.all (line_ok db) with
            | true => rfl
            | false => exact absurd (ih.mpr hall0) (by simp [hv])
          simp [List.all_cons, line_ok, hp, hle, hall]

/-- Claim C4: commit-time re-validation. With a non-empty cart, create_sale
re-reads every line's product; when some line's product is missing or its
current stock is below the line quantity it returns failure with the store
untouched, and only when every line passes both checks does it invoke the
atomic insertion (on the draft with the server-computed total and the
validated, name-snapshotted lines). -/
theorem create_sale_revalidates (db : DBState) (sess : Session) (sale : Sale)
    (failAt : Option Nat) (hne : sale.items ≠ []) :
    (sale.items.all (line_ok db) = false →
        create_sale db (some sess) sale failAt = ((false, none), db)) ∧
    (sale.items.all (line_ok db) = true → ∃ items',
        validate_items db sale.items = some items' ∧
        create_sale db (some sess) sale failAt =
          create_sale_with_items db
            { user_id := sess.user_id, total_amount := calculate_total sale.items,
              payment_method := sale.payment_method, items := items' } failAt) := by
  have hempty : sale.items.isEmpty = false := by
    cases hi : sale.items with
    | nil => exact absurd hi hne
    | cons a l => rfl
  constructor
  · intro hall
    have hv : validate_items db sale.items = none :=
      (validate_items_eq_none_iff db sale.items).mpr hall
    simp only [create_sale, hempty, Bool.false_eq_true, if_false]
    simp only [hv]
  · intro hall
    have hv0 : validate_items db sale.items ≠ none := by
      intro hcontra
      have hfalse := (validate_items_eq_none_iff db sale.items).mp hcontra
      rw [hall] at hfalse
      exact absurd hfalse (by simp)
    cases hv : validate_items db sale.items with
    | none => exact absurd hv hv0
    | some items' =>
      refine ⟨items', rfl, ?_⟩
      simp only [create_sale, hempty, Bool.false_eq_true, if_false]
      simp only [hv]

/-- Witness for create_sale_revalidates: on the demo store every line of
draft3 passes, and create_sale reduces to the atomic insertion of the
validated draft. -/
theorem create_sale_revalidates_witness :
    draft3.items.all (line_ok demoDb) = true ∧
    create_sale demoDb (some ⟨7⟩) draft3 none =
      create_sale_with_items demoDb
        { user_id := (⟨7⟩ : Session).user_id,
          total_amount := calculate_total draft3.items,
          payment_method := draft3.payment_method,
          items := validated3 } none := by
  refine ⟨by decide, ?_⟩
  obtain ⟨items', hv, heq⟩ :=
    (create_sale_revalidates demoDb ⟨7⟩ draft3 none (by decide)).2 (by decide)
  have hconc : items' = validated3 := by
    have hv2 : validate_items demoDb draft3.items = some validated3 := by decide
    rw [hv] at hv2
    simpa using hv2
  rw [hconc] at heq
  exact heq

/-- Validation only snapshots product names onto the lines; the sum of line
totals is unchanged. -/
theorem validate_items_total (db : DBState) (items : List SaleItem) :
    ∀ items', validate_items db items = some items' →
      calculate_total items' = calculate_total items := by
  induction items with
  | nil =>
    intro items' h
    simp [validate_items] at h
    rw [← h]
  | cons it rest ih =>
    intro items' h
    rw [validate_items] at h
    cases hp : get_by_id db it.product_id with
    | none => simp [hp] at h
    | some p =>
      simp only [hp] at h
      by_cases hq : p.quantity < it.quantity
      · rw [if_pos hq] at h
        exact absurd h (by simp)
      · rw [if_neg hq] at h
        cases hv : validate_items db rest with
        | none => simp [hv] at h
        | some rest' =>
          simp only [hv, Option.some.injEq] at h
          subst h
          have hrest := ih rest' hv
          simp only [calculate_total, List.map_cons, List.sum_cons] at *
          rw [hrest]
          rfl

/-- Claim C5: server-side total invariant. create_sale ignores any
total_amount supplied on the draft (first conjunct), and every sale it
commits carries a total_amount equal to the sum of quantity * unit_price
over exactly the sale_items rows persisted for it (second conjunct; the
freshness hypothesis says the allocated sale id is not already used, which
AUTO_INCREMENT guarantees). -/
theorem create_sale_total_invariant (db : DBState) (sess : Session) (sale : Sale)
    (failAt : Option Nat) :
    (∀ t, create_sale db (some sess) { sale with total_amount := t } failAt
        = create_sale db (some sess) sale failAt) ∧
    (∀ sid db', (∀ r ∈ db.sale_items, r.sale_id ≠ db.nextSaleId) →
      create_sale db (some sess) sale failAt = ((true, some sid), db') →
      ∃ srow, srow ∈ db'.sales ∧ srow.id = sid ∧
        srow.total_amount
          = items_total (db'.sale_items.filter (fun r => r.sale_id == sid))) := by
  constructor
  · intro t
    rfl
  · intro sid db' hfresh h
    cases hi : sale.items.isEmpty with
    | true =>
      simp only [create_sale, hi, if_true] at h
      simp [Prod.ext_iff] at h
    | false =>
      simp only [create_sale, hi, Bool.false_eq_true, if_false] at h
      cases hv : validate_items db sale.items with
      | none =>
        simp only [hv] at h
        simp [Prod.ext_iff] at h
      | some items' =>
        simp only [hv] at h
        obtain ⟨hsid, hsales, hitems, _⟩ := csw_success db _ failAt sid db' h
        refine ⟨{ id := sid, user_id := sess.user_id,
                  total_amount := calculate_total sale.items,
                  payment_method := sale.payment_method }, ?_, rfl, ?_⟩
        · rw [hsales]
          simp
        · rw [hitems]
          have h1 : db.sale_items.filter (fun r => r.sale_id == sid) = [] := by
            rw [List.filter_eq_nil_iff]
            intro r hr
            have := hfresh r hr
            rw [← hsid] at this
            simp [this]
          have h2 : (items'.map (itemRow sid)).filter (fun r => r.sale_id == sid)
              = items'.map (itemRow sid) := by
            rw [List.filter_eq_self]
            intro r hr
            rcases List.mem_map.mp hr with ⟨it, _, rfl⟩
            simp [itemRow]
          rw [List.filter_append, h1, h2, List.nil_append]
          have h3 : items_total (items'.map (itemRow sid)) = calculate_total items' := by
            unfold items_total calculate_total
            rw [List.map_map]
            rfl
          rw [h3, validate_items_total db sale.items items' hv]

/-- Witness for create_sale_total_invariant: the sale committed from draft3
on the demo store carries total 30, the sum over its persisted rows. -/
theorem create_sale_total_invariant_witness :
    ∃ srow, srow ∈ (create_sale demoDb (some ⟨7⟩) draft3 none).2.sales ∧
      srow.id = 1 ∧
      srow.total_amount = items_total
        ((create_sale demoDb (some ⟨7⟩) draft3 none).2.sale_items.filter
          (fun r => r.sale_id == 1)) :=
  (create_sale_total_invariant demoDb ⟨7⟩ draft3 none).2 1
    ((create_sale demoDb (some ⟨7⟩) draft3 none).2) (by decide) (by rfl)

/-- Claim C2 (refuting evaluation): starting from a store whose only product
has five units on hand (≥ 0 everywhere), the single sequential core
operation create_sale, applied to a draft that carries two separate
three-unit lines for that product, commits successfully and leaves the
product's quantity-on-hand at -1: each line passes the per-line check
against the same stock of five, and the transaction's raw decrements then
drive the quantity negative. -/
theorem create_sale_duplicate_lines_negative_stock :
    (create_sale demoDb (some ⟨7⟩) draftDup none).1 = (true, some 1) ∧
    get_quantity (create_sale demoDb (some ⟨7⟩) draftDup none).2 1 = some (-1) := by
  decide

/-- Claim C3 (refuting evaluation): with five units on hand, two concurrent
update_quantity calls with deltas -3 and -4 — each individually passing the
non-negative check, jointly driving the quantity negative — both succeed
under the schedule read-read-write-write, because product_repo.update_quantity
performs its SELECT and its UPDATE as two unlocked statements and the
loser's write of 5 - 4 = 1 over the committed 2 does change the row (so its
affected_rows check also reports success). The stored quantity ends at 1 —
never negative, since each write is an individually checked absolute value —
but the claim's at-most-one-succeeds part is violated. (With equal deltas
the loser's identical write would change no row and report False via the
affected-rows check; the violation needs deltas whose writes differ.) -/
theorem update_quantity_race_both_succeed :
    (0 : Int) ≤ 5 + (-3) ∧ (0 : Int) ≤ 5 + (-4) ∧ (5 : Int) + (-3) + (-4) < 0 ∧
    (runRace 5 ⟨-3, none, none⟩ ⟨-4, none, none⟩ [false, true, false, true]).2.1.result
      = some true ∧
    (runRace 5 ⟨-3, none, none⟩ ⟨-4, none, none⟩ [false, true, false, true]).2.2.result
      = some true ∧
    (runRace 5 ⟨-3, none, none⟩ ⟨-4, none, none⟩ [false, true, false, true]).1 = 1 := by
  decide

/-- Claim C7 (counterexample): the cart already holds three units of product
1 and the store has five on hand; adding three more units merges to a
six-unit line and reports success, even though the combined quantity 3 + 3
exceeds the stock of 5 — add_product_to_sale checks only the added quantity
against stock, never the combined line quantity. -/
theorem add_product_to_sale_no_combined_check :
    (5 : Int) < 3 + 3 ∧
    add_product_to_sale demoDb cart3 1 3 =
      (true, { cart3 with items :=
        [{ product_id := 1, product_name := "widget", quantity := 6, unit_price := 10 }] }) := by
  decide

/-- Claim C9 (counterexample): three different failure causes — the line's
product does not exist (bareDb), the product exists with insufficient stock
(lowDb), and an infrastructure failure inside the storage transaction
(demoDb with the first statement raising) — all return the very same value
(False, None): the result neither names the offending product nor
distinguishes validation failures from infrastructure failures. -/
theorem create_sale_failures_indistinguishable :
    create_sale bareDb (some ⟨7⟩) draft3 none = ((false, none), bareDb) ∧
    create_sale lowDb (some ⟨7⟩) draft3 none = ((false, none), lowDb) ∧
    create_sale demoDb (some ⟨7⟩) draft3 (some 0) = ((false, none), demoDb) := by
  decide

/-- Claim C10 (counterexample): from the empty cart, the single operation
addProduct(product 1, quantity 0) against a store holding five units
succeeds and leaves a line item with quantity 0 in the cart — the stock
check 5 < 0 does not reject a non-positive quantity argument. -/
theorem cart_add_zero_creates_zero_quantity_line :
    (applyCartOps emptySale [(demoDb, CartOp.add 1 0)]).items =
      [{ product_id := 1, product_name := "widget", quantity := 0, unit_price := 10 }] ∧
    ¬ (∀ it ∈ (applyCartOps emptySale [(demoDb, CartOp.add 1 0)]).items,
        1 ≤ it.quantity) := by
  decide

/-- The merge loop increments the first line for the product and touches
nothing else: no duplicate line is created. -/
theorem bumpFirst_append (pre post : List SaleItem) (it : SaleItem) (pid : Nat) (q : Int)
    (hpre : ∀ j ∈ pre, j.product_id ≠ pid) (hit : it.product_id = pid) :
    bumpFirst (pre ++ it :: post) pid q
      = some (pre ++ { it with quantity := it.quantity + q } :: post) := by
  induction pre with
  | nil =>
    simp only [List.nil_append, bumpFirst]
    rw [if_pos (by simp [hit])]
  | cons j rest ih =>
    have hj : ¬ (j.product_id = pid) := hpre j (List.mem_cons_self j rest)
    simp only [List.cons_append, bumpFirst]
    rw [if_neg (by simp [hj])]
    simp only [List.append_eq]
    rw [ih (fun a ha => hpre a (List.mem_cons_of_mem j ha))]

/-- Claim C7 (amended): when the cart already holds a line for the product,
add_product_to_sale merges by incrementing that line in place — no
duplicate line, the rest of the cart untouched — and it fails with the cart
unchanged exactly when the quantity being added, on its own, exceeds the
product's current stock; the combined line quantity is never re-checked. -/
theorem add_product_to_sale_merge (db : DBState) (sale : Sale) (pid : Nat) (q : Int)
    (p : Product) (hp : get_by_id db pid = some p)
    (pre post : List SaleItem) (it : SaleItem)
    (hpre : ∀ j ∈ pre, j.product_id ≠ pid) (hit : it.product_id = pid)
    (hitems : sale.items = pre ++ it :: post) :
    (p.quantity < q → add_product_to_sale db sale pid q = (false, sale)) ∧
    (q ≤ p.quantity →
      add_product_to_sale db sale pid q =
        (true, { sale with items :=
          pre ++ { it with quantity := it.quantity + q } :: post })) := by
  constructor
  · intro hlt
    simp only [add_product_to_sale, hp]
    rw [if_pos hlt]
  · intro hle
    simp only [add_product_to_sale, hp]
    rw [if_neg (by omega), hitems, bumpFirst_append pre post it pid q hpre hit]

/-- Witness for add_product_to_sale_merge: adding two more units of product
1 to a cart already holding three merges to a single five-unit line. -/
theorem add_product_to_sale_merge_witness :
    add_product_to_sale demoDb cart3 1 2 =
      (true, { user_id := 0, total_amount := 0, payment_method := "cash",
               items := [{ product_id := 1, product_name := "widget",
                           quantity := 5, unit_price := 10 }] }) := by
  have h := (add_product_to_sale_merge demoDb cart3 1 2
      { id := 1, barcode := none, name := "widget", price := 10, quantity := 5 }
      (by decide) [] []
      { product_id := 1, product_name := "widget", quantity := 3, unit_price := 10 }
      (by simp) (by decide) (by decide)).2 (by decide)
  exact h.trans (by decide)

/-- The removal loop finds nothing when the product is absent from the
cart. -/
theorem removeFirst_eq_none (items : List SaleItem) (pid : Nat) (q : Option Int)
    (h : ∀ j ∈ items, j.product_id ≠ pid) :
    removeFirst items pid q = none := by
  induction items with
  | nil => rfl
  | cons j rest ih =>
    have hj := h j (List.mem_cons_self j rest)
    simp only [removeFirst]
    rw [if_neg (by simp [hj]), ih (fun a ha => h a (List.mem_cons_of_mem j ha))]

/-- The removal loop on a cart whose first line for the product sits between
pre and post: drop the line when no quantity is given or the line quantity
is at most the given one, decrement it otherwise. -/
theorem removeFirst_append (pre post : List SaleItem) (it : SaleItem) (pid : Nat)
    (hpre : ∀ j ∈ pre, j.product_id ≠ pid) (hit : it.product_id = pid) :
    (removeFirst (pre ++ it :: post) pid none = some (pre ++ post)) ∧
    (∀ n : Int, it.quantity ≤ n →
        removeFirst (pre ++ it :: post) pid (some n) = some (pre ++ post)) ∧
    (∀ n : Int, n < it.quantity →
        removeFirst (pre ++ it :: post) pid (some n)
          = some (pre ++ { it with quantity := it.quantity - n } :: post)) := by
  induction pre with
  | nil =>
    refine ⟨?_, ?_, ?_⟩
    · simp only [List.nil_append, removeFirst]
      rw [if_pos (by simp [hit])]
    · intro n hn
      simp only [List.nil_append, removeFirst]
      rw [if_pos (by simp [hit]), if_pos hn]
    · intro n hn
      simp only [List.nil_append, removeFirst]
      rw [if_pos (by simp [hit]), if_neg (by omega)]
  | cons j rest ih =>
    have hj := hpre j (List.mem_cons_self j rest)
    have ih' := ih (fun a ha => hpre a (List.mem_cons_of_mem j ha))
    refine ⟨?_, ?_, ?_⟩
    · simp only [List.cons_append, removeFirst]
      rw [if_neg (by simp [hj])]
      simp only [List.append_eq]
      rw [ih'.1]
    · intro n hn
      simp only [List.cons_append, removeFirst]
      rw [if_neg (by simp [hj])]
      simp only [List.append_eq]
      rw [ih'.2.1 n hn]
    · intro n hn
      simp only [List.cons_append, removeFirst]
      rw [if_neg (by simp [hj])]
      simp only [List.append_eq]
      rw [ih'.2.2 n hn]

/-- Claim C8: remove_product_from_sale removes the product's whole line when
no quantity is given; with a given quantity it decrements the line when the
given amount is below the line quantity and removes the line when the given
amount is at least the line quantity; and it reports False with the cart
unchanged when no line for the product exists. -/
theorem remove_product_semantics (sale : Sale) (pid : Nat) :
    ((∀ j ∈ sale.items, j.product_id ≠ pid) →
        ∀ q, remove_product_from_sale sale pid q = (false, sale)) ∧
    (∀ pre post it, (∀ j ∈ pre, j.product_id ≠ pid) → it.product_id = pid →
      sale.items = pre ++ it :: post →
      (remove_product_from_sale sale pid none
          = (true, { sale with items := pre ++ post })) ∧
      (∀ n : Int, it.quantity ≤ n →
        remove_product_from_sale sale pid (some n)
          = (true, { sale with items := pre ++ post })) ∧
      (∀ n : Int, n < it.quantity →
        remove_product_from_sale sale pid (some n)
          = (true, { sale with items :=
              pre ++ { it with quantity := it.quantity - n } :: post }))) := by
  constructor
  · intro habs q
    simp only [remove_product_from_sale, removeFirst_eq_none sale.items pid q habs]
  · intro pre post it hpre hit hitems
    obtain ⟨h1, h2, h3⟩ := removeFirst_append pre post it pid hpre hit
    refine ⟨?_, ?_, ?_⟩
    · simp only [remove_product_from_sale, hitems, h1]
    · intro n hn
      simp only [remove_product_from_sale, hitems, h2 n hn]
    · intro n hn
      simp only [remove_product_from_sale, hitems, h3 n hn]

/-- Witness for remove_product_semantics: removing product 1 with no
quantity empties the one-line cart, and removing absent product 2 reports
False with the cart unchanged. -/
theorem remove_product_semantics_witness :
    remove_product_from_sale cart3 1 none =
      (true, { user_id := 0, total_amount := 0, payment_method := "cash",
               items := [] }) ∧
    remove_product_from_sale cart3 2 none = (false, cart3) := by
  constructor
  · have h := ((remove_product_semantics cart3 1).2 [] []
      { product_id := 1, product_name := "widget", quantity := 3, unit_price := 10 }
      (by simp) (by decide) (by decide)).1
    exact h.trans (by decide)
  · exact (remove_product_semantics cart3 2).1 (by decide) none

/-- The first component of create_sale_with_items is either success with the
allocated id or the bare failure value. -/
theorem create_sale_with_items_fst (db : DBState) (s : Sale) (failAt : Option Nat) :
    (create_sale_with_items db s failAt).1 = (true, some db.nextSaleId) ∨
    (create_sale_with_items db s failAt).1 = (false, none) := by
  rcases create_sale_with_items_cases db s failAt with hc | ⟨buf, _, hc⟩
  · right; rw [hc]
  · left; rw [hc]

/-- Claim C9 (amended): every create_sale outcome is an in-band typed pair —
success with the new sale id, or exactly (False, None); no exception escapes
to the caller, but the failure value carries no distinction between
InsufficientStock, ProductNotFound and infrastructure failure and does not
name the offending product (those appear only in the log). -/
theorem create_sale_inband_result (db : DBState) (sess : Option Session) (sale : Sale)
    (failAt : Option Nat) :
    (create_sale db sess sale failAt).1 = (true, some db.nextSaleId) ∨
    (create_sale db sess sale failAt).1 = (false, none) := by
  cases hi : sale.items.isEmpty with
  | true => right; simp [create_sale, hi]
  | false =>
    cases sess with
    | none => right; simp [create_sale, hi]
    | some s =>
      simp only [create_sale, hi, Bool.false_eq_true, if_false]
      cases hv : validate_items db sale.items with
      | none => right; simp [hv]
      | some items' =>
        simp only [hv]
        exact create_sale_with_items_fst db _ failAt

/-- Members of a merged cart are old lines or the incremented line. -/
theorem mem_of_mem_bumpFirst (pid : Nat) (q : Int) :
    ∀ (items items' : List SaleItem), bumpFirst items pid q = some items' →
      ∀ it' ∈ items', it' ∈ items ∨
        ∃ it, it ∈ items ∧ it' = { it with quantity := it.quantity + q } := by
  intro items
  induction items with
  | nil => intro items' h; simp [bumpFirst] at h
  | cons j rest ih =>
    intro items' h
    simp only [bumpFirst] at h
    by_cases hj : (j.product_id == pid) = true
    · rw [if_pos hj] at h
      simp only [Option.some.injEq] at h
      subst h
      intro it' hit'
      rcases List.mem_cons.mp hit' with h1 | h1
      · right; exact ⟨j, List.mem_cons_self j rest, h1⟩
      · left; exact List.mem_cons_of_mem j h1
    · rw [if_neg hj] at h
      cases hb : bumpFirst rest pid q with
      | none => simp [hb] at h
      | some rest' =>
        simp only [hb, Option.some.injEq] at h
        subst h
        intro it' hit'
        rcases List.mem_cons.mp hit' with h1 | h1
        · left; rw [h1]; exact List.mem_cons_self j rest
        · rcases ih rest' hb it' h1 with h2 | ⟨it, hmem, heq⟩
          · left; exact List.mem_cons_of_mem j h2
          · right; exact ⟨it, List.mem_cons_of_mem j hmem, heq⟩

/-- Members of a cart after removal are old lines or a decremented line
whose decrement was strictly below the old quantity. -/
theorem mem_of_mem_removeFirst (pid : Nat) (q : Option Int) :
    ∀ (items items' : List SaleItem), removeFirst items pid q = some items' →
      ∀ it' ∈ items', it' ∈ items ∨
        ∃ it n, it ∈ items ∧ q = some n ∧ n < it.quantity ∧
          it' = { it with quantity := it.quantity - n } := by
  intro items
  induction items with
  | nil => intro items' h; simp [removeFirst] at h
  | cons j rest ih =>
    intro items' h
    simp only [removeFirst] at h
    by_cases hj : (j.product_id == pid) = true
    · rw [if_pos hj] at h
      cases q with
      | none =>
        simp only [Option.some.injEq] at h
        subst h
        intro it' hit'
        left; exact List.mem_cons_of_mem j hit'
      | some n =>
        have h2 : (if j.quantity ≤ n then some rest
            else some ({ j with quantity := j.quantity - n } :: rest)) = some items' := h
        by_cases hq : j.quantity ≤ n
        · rw [if_pos hq] at h2
          simp only [Option.some.injEq] at h2
          subst h2
          intro it' hit'
          left; exact List.mem_cons_of_mem j hit'
        · rw [if_neg hq] at h2
          simp only [Option.some.injEq] at h2
          subst h2
          intro it' hit'
          rcases List.mem_cons.mp hit' with h1 | h1
          · right
            exact ⟨j, n, List.mem_cons_self j rest, rfl, by omega, h1⟩
          · left; exact List.mem_cons_of_mem j h1
    · rw [if_neg hj] at h
      cases hb : removeFirst rest pid q with
      | none => simp [hb] at h
      | some rest' =>
        simp only [hb, Option.some.injEq] at h
        subst h
        intro it' hit'
        rcases List.mem_cons.mp hit' with h1 | h1
        · left; rw [h1]; exact List.mem_cons_self j rest
        · rcases ih rest' hb it' h1 with h2 | ⟨it, n, hmem, hqn, hlt, heq⟩
          · left; exact List.mem_cons_of_mem j h2
          · right; exact ⟨it, n, List.mem_cons_of_mem j hmem, hqn, hlt, heq⟩

/-- Adding at least one unit preserves the all-lines-at-least-one
invariant. -/
theorem add_product_preserves_ge_one (db : DBState) (sale : Sale) (pid : Nat) (q : Int)
    (hq : 1 ≤ q) (hinv : ∀ it ∈ sale.items, 1 ≤ it.quantity) :
    ∀ it ∈ (add_product_to_sale db sale pid q).2.items, 1 ≤ it.quantity := by
  cases hp : get_by_id db pid with
  | none =>
    simp only [add_product_to_sale, hp]
    exact hinv
  | some p =>
    simp only [add_product_to_sale, hp]
    by_cases hlt : p.quantity < q
    · rw [if_pos hlt]; exact hinv
    · rw [if_neg hlt]
      cases hb : bumpFirst sale.items pid q with
      | none =>
        show ∀ it ∈ sale.items ++ [{ product_id := pid, product_name := p.name, quantity := q, unit_price := p.price }], 1 ≤ it.quantity
        intro it hit
        rcases List.mem_append.mp hit with h1 | h1
        · exact hinv it h1
        · have heq : it = { product_id := pid, product_name := p.name, quantity := q, unit_price := p.price } := by simpa using h1
          rw [heq]
          exact hq
      | some items' =>
        show ∀ it ∈ items', 1 ≤ it.quantity
        intro it hit
        rcases mem_of_mem_bumpFirst pid q sale.items items' hb it hit with h1 | ⟨it0, hmem, heq⟩
        · exact hinv it h1
        · rw [heq]
          have hit0 := hinv it0 hmem
          show 1 ≤ it0.quantity + q
          omega

/-- Removal, with any quantity argument, preserves the
all-lines-at-least-one invariant. -/
theorem remove_product_preserves_ge_one (sale : Sale) (pid : Nat) (q : Option Int)
    (hinv : ∀ it ∈ sale.items, 1 ≤ it.quantity) :
    ∀ it ∈ (remove_product_from_sale sale pid q).2.items, 1 ≤ it.quantity := by
  cases hb : removeFirst sale.items pid q with
  | none =>
    simp only [remove_product_from_sale, hb]
    exact hinv
  | some items' =>
    simp only [remove_product_from_sale, hb]
    intro it hit
    rcases mem_of_mem_removeFirst pid q sale.items items' hb it hit with h1 | ⟨it0, n, hmem, _, hlt, heq⟩
    · exact hinv it h1
    · rw [heq]
      have hit0 := hinv it0 hmem
      show 1 ≤ it0.quantity - n
      omega

/-- Claim C10 (amended): for every sequence of addProduct and removeProduct
operations on an initially empty cart in which each addProduct adds at
least one unit (removeProduct quantities stay arbitrary integers), every
line of the resulting cart has quantity at least 1. -/
theorem cart_ops_quantity_ge_one (ops : List (DBState × CartOp))
    (hops : ∀ o ∈ ops, addQtyOk o) :
    ∀ it ∈ (applyCartOps emptySale ops).items, 1 ≤ it.quantity := by
  suffices hgen : ∀ (l : List (DBState × CartOp)) (sale : Sale),
      (∀ it ∈ sale.items, 1 ≤ it.quantity) → (∀ o ∈ l, addQtyOk o) →
      ∀ it ∈ (applyCartOps sale l).items, 1 ≤ it.quantity by
    exact hgen ops emptySale (by simp [emptySale]) hops
  intro l
  induction l with
  | nil =>
    intro sale hinv _ it hit
    exact hinv it hit
  | cons o rest ih =>
    intro sale hinv hl
    rcases o with ⟨db, op⟩
    have h1 := hl _ (List.mem_cons_self _ _)
    have h2 : ∀ o ∈ rest, addQtyOk o := fun a ha => hl a (List.mem_cons_of_mem _ ha)
    cases op with
    | add pid q =>
      show ∀ it ∈ (applyCartOps ((add_product_to_sale db sale pid q).2) rest).items,
          1 ≤ it.quantity
      exact ih _ (add_product_preserves_ge_one db sale pid q h1 hinv) h2
    | remove pid q =>
      show ∀ it ∈ (applyCartOps ((remove_product_from_sale sale pid q).2) rest).items,
          1 ≤ it.quantity
      exact ih _ (remove_product_preserves_ge_one sale pid q hinv) h2

/-- Sanity link between the race model and the embedded repository code: a
single uninterleaved update_quantity call (schedule read-then-write with the
other call never scheduled) reports the same outcome and leaves the same
stored quantity as update_quantity on a one-product store. -/
theorem runRace_solo_models_update_quantity (q0 d : Int) :
    (runRace q0 ⟨d, none, none⟩ ⟨0, none, none⟩ [false, false]).2.1.result
      = some (update_quantity (oneProductDb q0) 1 d).1 ∧
    get_quantity (update_quantity (oneProductDb q0) 1 d).2 1
      = some (runRace q0 ⟨d, none, none⟩ ⟨0, none, none⟩ [false, false]).1 := by
  by_cases h : q0 + d < 0
  · constructor <;>
      simp [runRace, stepAdjust, update_quantity, oneProductDb, get_by_id,
        get_quantity, set_quantity, List.find?, h]
  · by_cases h2 : q0 + d = q0
    · constructor <;>
        simp [runRace, stepAdjust, update_quantity, oneProductDb, get_by_id,
          get_quantity, set_quantity, List.find?, h, h2]
    · constructor <;>
        simp [runRace, stepAdjust, update_quantity, oneProductDb, get_by_id,
          get_quantity, set_quantity, List.find?, h, h2]

/-- Witness for cart_ops_quantity_ge_one: the cart built by the single
operation addProduct(product 1, quantity 2) keeps its one line at quantity
2, which is at least 1. -/
theorem cart_ops_quantity_ge_one_witness :
    1 ≤ ({ product_id := 1, product_name := "widget", quantity := 2,
           unit_price := 10 } : SaleItem).quantity := by
  refine cart_ops_quantity_ge_one [(demoDb, CartOp.add 1 2)] ?_ _ ?_
  · intro o ho
    have ho2 := List.mem_singleton.mp ho
    subst ho2
    exact (by decide : (1 : Int) ≤ 2)
  · decide

end POS
